import Mathlib

/-!
Verification of the WWTP equipment tool's data-access layer (src/schema.py and
src/models.py) against its natural-language specification.

The SQLite store is modelled shallowly: a table is a list of rows in rowid
(insertion) order, a stored cell is a `Value`, and each manager method of
models.py becomes a Lean function on the database state.  Statements that can
fail against a storage constraint return `Except SqlError`.  Where SQLite
behaviour matters it is modelled explicitly: per-connection `PRAGMA
foreign_keys` state, `UNIQUE` treating NULLs as distinct, `LIKE` with `%`/`_`
wildcards and ASCII case folding, and `LIMIT 1` without `ORDER BY` returning
the first row in stored order.
-/

namespace WWTP

/-- A value stored in an SQLite cell: NULL, an integer, or text.  (REAL
columns never carry claim-relevant arithmetic, so numeric cells are
modelled as integers.) -/
inductive Value where
  | null : Value
  | int : Int → Value
  | text : String → Value
deriving DecidableEq, Repr

/-- models.py `DatabaseManager.get_connection` opens `sqlite3.connect(db_path)`
with a row factory and runs no `PRAGMA foreign_keys` statement; SQLite
connections start with foreign-key enforcement OFF, so every entity-manager
statement runs with this flag. -/
def managerForeignKeysOn : Bool := false

/-- schema.py `create_database` runs `PRAGMA foreign_keys = ON;` on the one
connection it opens itself (line 28). -/
def schemaForeignKeysOn : Bool := true

/-- Row of the `projects` table (schema.py lines 33-43). -/
structure ProjectRow where
  project_id : Nat
  name : Value
  client : Value
  job_number : Value
  phase : Value
  notes : Value
deriving DecidableEq, Repr

/-- Row of the `equipment_master` table (schema.py lines 48-78). -/
structure EquipmentRow where
  equipment_id : Nat
  manufacturer : Value
  model : Value
  equipment_type : Value
  equipment_subtype : Value
  power_hp : Value
  flow_gpm : Value
  head_ft : Value
  voltage : Value
  rpm : Value
  power_hp_verified : Value
  flow_gpm_verified : Value
  head_ft_verified : Value
  material : Value
  connection_size : Value
  weight_lbs : Value
  notes : Value
deriving DecidableEq, Repr

/-- Row of the `project_equipment` table (schema.py lines 83-103).
`project_id` and `equipment_id` are `INTEGER NOT NULL`, set only at insert
time through the typed API, so they are plain naturals here. -/
structure ProjectEquipmentRow where
  instance_id : Nat
  project_id : Nat
  equipment_id : Nat
  pid_tag : Value
  status : Value
  quantity : Value
  location : Value
  notes : Value
  selected_quote_id : Value
deriving DecidableEq, Repr

/-- Row of the `quotes` table (schema.py lines 108-127). -/
structure QuoteRow where
  quote_id : Nat
  equipment_id : Nat
  vendor : Value
  price : Value
  currency : Value
  lead_time_weeks : Value
  quote_date : Value
  quote_number : Value
  quote_file_path : Value
  is_current : Value
  notes : Value
deriving DecidableEq, Repr

/-- Database state: the four claim-relevant tables in rowid order, plus the
AUTOINCREMENT counters.  (The `documents` table is carried by no claim about
stored state; its operations appear in the statement-count model below.) -/
structure DB where
  projects : List ProjectRow
  equipment_master : List EquipmentRow
  project_equipment : List ProjectEquipmentRow
  quotes : List QuoteRow
  nextProjectId : Nat
  nextEquipmentId : Nat
  nextInstanceId : Nat
  nextQuoteId : Nat
deriving DecidableEq, Repr

/-- The freshly created database: empty tables, AUTOINCREMENT counters at 1. -/
def emptyDB : DB :=
  { projects := []
    equipment_master := []
    project_equipment := []
    quotes := []
    nextProjectId := 1
    nextEquipmentId := 1
    nextInstanceId := 1
    nextQuoteId := 1 }

/-- Storage-layer failures surfaced by SQLite. -/
inductive SqlError where
  | uniqueViolation : SqlError
  | foreignKeyViolation : SqlError
  | checkViolation : SqlError
  | notNullViolation : SqlError
deriving DecidableEq, Repr

/-- The values admitted by the CHECK constraint on `project_equipment.status`
(schema.py line 90). -/
def statusValues : List Value :=
  [Value.text "existing", Value.text "new", Value.text "replace",
   Value.text "remove", Value.text "TBD"]

/-- Does a status value satisfy the CHECK constraint? -/
def statusOk (v : Value) : Bool :=
  statusValues.any (fun s => decide (s = v))

/-- Python keyword arguments: field name to value, unique keys. -/
abbrev Kwargs := List (String × Value)

/-- Allow-list of models.py `ProjectEquipmentManager.update_project_equipment`
(line 223). -/
def peAllowedFields : List String :=
  ["pid_tag", "status", "quantity", "location", "notes", "selected_quote_id"]

/-- Apply one `column = ?` assignment of an UPDATE statement to a
`project_equipment` row; a column name outside the table is a no-op (such a
statement never reaches SQLite in the source, since the manager filters names
first). -/
def ProjectEquipmentRow.setField (r : ProjectEquipmentRow) (k : String) (v : Value) :
    ProjectEquipmentRow :=
  if k = "pid_tag" then { r with pid_tag := v }
  else if k = "status" then { r with status := v }
  else if k = "quantity" then { r with quantity := v }
  else if k = "location" then { r with location := v }
  else if k = "notes" then { r with notes := v }
  else if k = "selected_quote_id" then { r with selected_quote_id := v }
  else r

/-- Read a mutable column of a `project_equipment` row by name. -/
def ProjectEquipmentRow.getField (r : ProjectEquipmentRow) (k : String) : Value :=
  if k = "pid_tag" then r.pid_tag
  else if k = "status" then r.status
  else if k = "quantity" then r.quantity
  else if k = "location" then r.location
  else if k = "notes" then r.notes
  else if k = "selected_quote_id" then r.selected_quote_id
  else Value.null

/-- Apply the SET clause of an UPDATE (assignments in source order) to a row. -/
def ProjectEquipmentRow.applyUpdates (updates : Kwargs) (r : ProjectEquipmentRow) :
    ProjectEquipmentRow :=
  updates.foldl (fun r kv => r.setField kv.1 kv.2) r

/-- Allow-list of models.py `EquipmentManager.update_equipment` (lines 149-154). -/
def equipmentUpdateFields : List String :=
  ["manufacturer", "model", "equipment_type", "equipment_subtype",
   "power_hp", "flow_gpm", "head_ft", "voltage", "rpm",
   "power_hp_verified", "flow_gpm_verified", "head_ft_verified",
   "material", "connection_size", "weight_lbs", "notes"]

/-- Allow-list of models.py `EquipmentManager.create_equipment` (lines 102-106):
the optional columns of the dynamic INSERT. -/
def equipmentCreateFields : List String :=
  ["equipment_subtype", "power_hp", "flow_gpm", "head_ft", "voltage", "rpm",
   "power_hp_verified", "flow_gpm_verified", "head_ft_verified",
   "material", "connection_size", "weight_lbs", "notes"]

/-- Apply one `column = ?` assignment to an `equipment_master` row. -/
def EquipmentRow.setField (r : EquipmentRow) (k : String) (v : Value) : EquipmentRow :=
  if k = "manufacturer" then { r with manufacturer := v }
  else if k = "model" then { r with model := v }
  else if k = "equipment_type" then { r with equipment_type := v }
  else if k = "equipment_subtype" then { r with equipment_subtype := v }
  else if k = "power_hp" then { r with power_hp := v }
  else if k = "flow_gpm" then { r with flow_gpm := v }
  else if k = "head_ft" then { r with head_ft := v }
  else if k = "voltage" then { r with voltage := v }
  else if k = "rpm" then { r with rpm := v }
  else if k = "power_hp_verified" then { r with power_hp_verified := v }
  else if k = "flow_gpm_verified" then { r with flow_gpm_verified := v }
  else if k = "head_ft_verified" then { r with head_ft_verified := v }
  else if k = "material" then { r with material := v }
  else if k = "connection_size" then { r with connection_size := v }
  else if k = "weight_lbs" then { r with weight_lbs := v }
  else if k = "notes" then { r with notes := v }
  else r

/-- Read a mutable column of an `equipment_master` row by name. -/
def EquipmentRow.getField (r : EquipmentRow) (k : String) : Value :=
  if k = "manufacturer" then r.manufacturer
  else if k = "model" then r.model
  else if k = "equipment_type" then r.equipment_type
  else if k = "equipment_subtype" then r.equipment_subtype
  else if k = "power_hp" then r.power_hp
  else if k = "flow_gpm" then r.flow_gpm
  else if k = "head_ft" then r.head_ft
  else if k = "voltage" then r.voltage
  else if k = "rpm" then r.rpm
  else if k = "power_hp_verified" then r.power_hp_verified
  else if k = "flow_gpm_verified" then r.flow_gpm_verified
  else if k = "head_ft_verified" then r.head_ft_verified
  else if k = "material" then r.material
  else if k = "connection_size" then r.connection_size
  else if k = "weight_lbs" then r.weight_lbs
  else if k = "notes" then r.notes
  else Value.null

/-- Apply the SET clause of an UPDATE (assignments in source order) to a row. -/
def EquipmentRow.applyUpdates (updates : Kwargs) (r : EquipmentRow) : EquipmentRow :=
  updates.foldl (fun r kv => r.setField kv.1 kv.2) r

/-- SQLite `UNIQUE(project_id, pid_tag)` (schema.py line 101): two rows
conflict only when the tags are equal and non-NULL — a composite UNIQUE
index never rejects rows holding a NULL. -/
def peNoConflict (a b : ProjectEquipmentRow) : Bool :=
  decide (¬ (a.pid_tag ≠ Value.null ∧ a.project_id = b.project_id ∧ a.pid_tag = b.pid_tag))

/-- No pair of rows of the table violates `UNIQUE(project_id, pid_tag)`. -/
def peUniqueOk : List ProjectEquipmentRow → Bool
  | [] => true
  | r :: rs => rs.all (peNoConflict r) && peUniqueOk rs

/-- Constraints SQLite evaluates on a written `project_equipment` row:
`status TEXT NOT NULL` and `CHECK(status IN (...))` (schema.py line 90).
Errors ordered: NOT NULL, then CHECK. -/
def peRowError (r : ProjectEquipmentRow) : Option SqlError :=
  if r.status = Value.null then some SqlError.notNullViolation
  else if statusOk r.status = false then some SqlError.checkViolation
  else none

/-- models.py `ProjectEquipmentManager.add_equipment_to_project` (lines
184-195): a single INSERT, executed on a manager connection whose foreign-key
flag is `fkOn`.  Checks modelled in order: row constraints (NOT NULL/CHECK),
the `UNIQUE(project_id, pid_tag)` index against the stored rows, and — only
when the connection enforces foreign keys — existence of the referenced
project, equipment and (when non-NULL) quote.  Returns `cursor.lastrowid`
and the new state. -/
def add_equipment_to_project (fkOn : Bool) (db : DB) (project_id equipment_id : Nat)
    (pid_tag status quantity location notes selected_quote_id : Value) :
    Except SqlError (Nat × DB) :=
  let row : ProjectEquipmentRow :=
    { instance_id := db.nextInstanceId
      project_id := project_id
      equipment_id := equipment_id
      pid_tag := pid_tag
      status := status
      quantity := quantity
      location := location
      notes := notes
      selected_quote_id := selected_quote_id }
  match peRowError row with
  | some e => .error e
  | none =>
    if db.project_equipment.all (fun a => peNoConflict a row) = false then
      .error SqlError.uniqueViolation
    else if fkOn &&
        (decide (¬ db.projects.any (fun p => decide (p.project_id = project_id)) = true) ||
         decide (¬ db.equipment_master.any (fun e => decide (e.equipment_id = equipment_id)) = true) ||
         (match selected_quote_id with
          | Value.null => false
          | Value.int i => decide (¬ db.quotes.any (fun q => decide ((q.quote_id : Int) = i)) = true)
          | Value.text _ => true)) then
      .error SqlError.foreignKeyViolation
    else
      .ok (db.nextInstanceId,
        { db with
            project_equipment := db.project_equipment ++ [row]
            nextInstanceId := db.nextInstanceId + 1 })

/-- models.py `ProjectEquipmentManager.update_project_equipment` (lines
221-233): filter the keyword arguments by the allow-list; with nothing left,
return without touching storage; otherwise run one UPDATE whose SET clause
assigns the surviving fields in order to the addressed row, subject to the
table's NOT NULL/CHECK/UNIQUE constraints.  On any reachable state every
untouched row already satisfies the row constraints, so checking the whole
table coincides with SQLite checking the modified rows. -/
def update_project_equipment (db : DB) (instance_id : Nat) (kwargs : Kwargs) :
    Except SqlError DB :=
  let updates := kwargs.filter (fun kv => peAllowedFields.contains kv.1)
  if updates.isEmpty then .ok db
  else
    let newPE := db.project_equipment.map (fun r =>
      if r.instance_id = instance_id then ProjectEquipmentRow.applyUpdates updates r else r)
    match (newPE.filterMap peRowError).head? with
    | some e => .error e
    | none =>
      if peUniqueOk newPE = false then .error SqlError.uniqueViolation
      else .ok { db with project_equipment := newPE }

/-- models.py `ProjectEquipmentManager.delete_project_equipment` (lines
235-237): one DELETE by instance id; no table references `project_equipment`,
so it cannot fail on any connection. -/
def delete_project_equipment (db : DB) (instance_id : Nat) : DB :=
  { db with
      project_equipment :=
        db.project_equipment.filter (fun pe => decide (pe.instance_id ≠ instance_id)) }

/-- models.py `ProjectManager.delete_project` (lines 85-90): two successive
`execute_update` calls, each its own connection and transaction — first
`DELETE FROM project_equipment WHERE project_id = ?`, then
`DELETE FROM projects WHERE project_id = ?`. -/
def delete_project (db : DB) (project_id : Nat) : DB :=
  let db1 :=
    { db with
        project_equipment :=
          db.project_equipment.filter (fun pe => decide (pe.project_id ≠ project_id)) }
  { db1 with
      projects := db1.projects.filter (fun p => decide (p.project_id ≠ project_id)) }

/-- models.py `EquipmentManager.delete_equipment` (lines 166-168): one DELETE
by equipment id on a manager connection whose foreign-key flag is `fkOn`.
With enforcement on, the `ON DELETE RESTRICT` reference from
`project_equipment.equipment_id` (schema.py line 98) rejects the delete while
a referencing instance exists, and the `ON DELETE CASCADE` reference from
`quotes.equipment_id` (schema.py line 125) removes the equipment's quotes;
with enforcement off the row is simply removed and references are left
dangling. -/
def delete_equipment (fkOn : Bool) (db : DB) (equipment_id : Nat) : Except SqlError DB :=
  if fkOn && db.project_equipment.any (fun pe => decide (pe.equipment_id = equipment_id)) then
    .error SqlError.foreignKeyViolation
  else
    .ok { db with
            equipment_master :=
              db.equipment_master.filter (fun e => decide (e.equipment_id ≠ equipment_id))
            quotes :=
              if fkOn then db.quotes.filter (fun q => decide (q.equipment_id ≠ equipment_id))
              else db.quotes }

/-- SQLite `UNIQUE(manufacturer, model)` (schema.py line 76): two rows
conflict when both columns are pairwise equal and non-NULL. -/
def equipmentNoConflict (a b : EquipmentRow) : Bool :=
  decide (¬ (a.manufacturer ≠ Value.null ∧ a.model ≠ Value.null ∧
             a.manufacturer = b.manufacturer ∧ a.model = b.model))

/-- No pair of rows of the table violates `UNIQUE(manufacturer, model)`. -/
def equipmentUniqueOk : List EquipmentRow → Bool
  | [] => true
  | r :: rs => rs.all (equipmentNoConflict r) && equipmentUniqueOk rs

/-- Constraints SQLite evaluates on a written `equipment_master` row:
`manufacturer`, `model` and `equipment_type` are `TEXT NOT NULL`. -/
def equipmentRowError (r : EquipmentRow) : Option SqlError :=
  if r.manufacturer = Value.null ∨ r.model = Value.null ∨ r.equipment_type = Value.null then
    some SqlError.notNullViolation
  else none

/-- models.py `EquipmentManager.create_equipment` (lines 100-120): builds a
dynamic INSERT whose column list starts with the three required columns and
then walks `allowed_fields` in order, including a column exactly when the
keyword arguments carry it with a non-None value; omitted columns keep their
defaults (NULL).  The row is checked against `UNIQUE(manufacturer, model)`.
Returns `cursor.lastrowid` and the new state. -/
def create_equipment (db : DB) (manufacturer model equipment_type : String)
    (kwargs : Kwargs) : Except SqlError (Nat × DB) :=
  let base : EquipmentRow :=
    { equipment_id := db.nextEquipmentId
      manufacturer := Value.text manufacturer
      model := Value.text model
      equipment_type := Value.text equipment_type
      equipment_subtype := Value.null
      power_hp := Value.null
      flow_gpm := Value.null
      head_ft := Value.null
      voltage := Value.null
      rpm := Value.null
      power_hp_verified := Value.null
      flow_gpm_verified := Value.null
      head_ft_verified := Value.null
      material := Value.null
      connection_size := Value.null
      weight_lbs := Value.null
      notes := Value.null }
  let row := equipmentCreateFields.foldl (fun r f =>
    match kwargs.lookup f with
    | some v => if v = Value.null then r else r.setField f v
    | none => r) base
  if db.equipment_master.all (fun a => equipmentNoConflict a row) = false then
    .error SqlError.uniqueViolation
  else
    .ok (db.nextEquipmentId,
      { db with
          equipment_master := db.equipment_master ++ [row]
          nextEquipmentId := db.nextEquipmentId + 1 })

/-- models.py `EquipmentManager.update_equipment` (lines 147-164): filter the
keyword arguments by the allow-list; with nothing left, return without
touching storage; otherwise run one UPDATE assigning the surviving fields in
order to the addressed row, subject to the table's NOT NULL and
`UNIQUE(manufacturer, model)` constraints. -/
def update_equipment (db : DB) (equipment_id : Nat) (kwargs : Kwargs) :
    Except SqlError DB :=
  let updates := kwargs.filter (fun kv => equipmentUpdateFields.contains kv.1)
  if updates.isEmpty then .ok db
  else
    let newEM := db.equipment_master.map (fun r =>
      if r.equipment_id = equipment_id then EquipmentRow.applyUpdates updates r else r)
    match (newEM.filterMap equipmentRowError).head? with
    | some e => .error e
    | none =>
      if equipmentUniqueOk newEM = false then .error SqlError.uniqueViolation
      else .ok { db with equipment_master := newEM }

/-- models.py `QuoteManager.get_current_quote` (lines 268-272):
`SELECT * FROM quotes WHERE equipment_id = ? AND is_current = 1 LIMIT 1`.
There is no ORDER BY, so `LIMIT 1` yields the first matching row in stored
(rowid) order. -/
def get_current_quote (db : DB) (equipment_id : Nat) : Option QuoteRow :=
  (db.quotes.filter (fun q =>
    decide (q.equipment_id = equipment_id) && decide (q.is_current = Value.int 1))).head?

/-- One record of the join returned by `get_project_equipment`: the instance
row together with its LEFT-JOINed equipment and quote rows (absent partners
yield NULL-valued columns, modelled as `none`). -/
structure ProjectEquipmentDetail where
  pe : ProjectEquipmentRow
  em : Option EquipmentRow
  quote : Option QuoteRow
deriving DecidableEq, Repr

/-- Code-point lexicographic comparison of text, SQLite's default BINARY
collation (the two agree on the ASCII data stored here). -/
def charListLe : List Char → List Char → Bool
  | [], _ => true
  | _ :: _, [] => false
  | c :: cs, d :: ds => if c = d then charListLe cs ds else decide (c < d)

/-- SQLite default ordering of two cell values: NULL sorts before integers,
integers before text, text by BINARY collation. -/
def Value.leb : Value → Value → Bool
  | Value.null, _ => true
  | Value.int _, Value.null => false
  | Value.int i, Value.int j => decide (i ≤ j)
  | Value.int _, Value.text _ => true
  | Value.text _, Value.null => false
  | Value.text _, Value.int _ => false
  | Value.text s, Value.text t => charListLe s.data t.data

/-- Ordering relation of `ORDER BY pe.pid_tag`. -/
def pidTagOrder (a b : ProjectEquipmentDetail) : Prop :=
  Value.leb a.pe.pid_tag b.pe.pid_tag = true

instance : DecidableRel pidTagOrder := fun _ _ =>
  inferInstanceAs (Decidable (_ = true))

/-- models.py `ProjectEquipmentManager.get_project_equipment` (lines 197-219):
`SELECT pe.*, em..., q... FROM project_equipment pe LEFT JOIN equipment_master
em ON pe.equipment_id = em.equipment_id LEFT JOIN quotes q ON
pe.selected_quote_id = q.quote_id WHERE pe.project_id = ? ORDER BY
pe.pid_tag`. -/
def get_project_equipment (db : DB) (project_id : Nat) : List ProjectEquipmentDetail :=
  List.insertionSort pidTagOrder
    ((db.project_equipment.filter (fun pe => decide (pe.project_id = project_id))).map
      (fun pe =>
        { pe := pe
          em := db.equipment_master.find? (fun e => decide (e.equipment_id = pe.equipment_id))
          quote :=
            match pe.selected_quote_id with
            | Value.int i => db.quotes.find? (fun q => decide ((q.quote_id : Int) = i))
            | _ => none }))

/-- Fold an ASCII upper-case letter to lower case; SQLite's default `LIKE` is
case-insensitive exactly for the ASCII range. -/
def asciiLower (c : Char) : Char :=
  if 'A' ≤ c ∧ c ≤ 'Z' then Char.ofNat (c.toNat + 32) else c

/-- Character comparison used by SQLite `LIKE`: equal after ASCII folding. -/
def charLikeEq (c d : Char) : Bool :=
  decide (asciiLower c = asciiLower d)

/-- SQLite `LIKE` pattern matching: `%` matches any character sequence
(including none), `_` matches exactly one character, any other pattern
character matches one text character up to ASCII case. -/
def likeMatch : List Char → List Char → Bool
  | [], s => s.isEmpty
  | c :: p, s =>
    if c = '%' then s.tails.any (fun s2 => likeMatch p s2)
    else
      match s with
      | [] => false
      | d :: s2 => (decide (c = '_') || charLikeEq c d) && likeMatch p s2

/-- Evaluate `column LIKE pattern` on a stored value: NULL operands make the
predicate NULL (the row is filtered out); the three searched columns are
declared `TEXT NOT NULL` and are written as text by the API. -/
def likeValue (pat : List Char) (v : Value) : Bool :=
  match v with
  | Value.text s => likeMatch pat s.data
  | _ => false

/-- Ordering relation of `ORDER BY manufacturer, model`. -/
def searchOrder (a b : EquipmentRow) : Prop :=
  (if a.manufacturer = b.manufacturer then Value.leb a.model b.model
   else Value.leb a.manufacturer b.manufacturer) = true

instance : DecidableRel searchOrder := fun _ _ =>
  inferInstanceAs (Decidable (_ = true))

/-- models.py `EquipmentManager.search_equipment` (lines 137-145):
`SELECT * FROM equipment_master WHERE manufacturer LIKE ? OR model LIKE ? OR
equipment_type LIKE ? ORDER BY manufacturer, model` with the single pattern
`%term%` bound to all three placeholders. -/
def search_equipment (db : DB) (search_term : String) : List EquipmentRow :=
  let pat := ("%" ++ search_term ++ "%").data
  List.insertionSort searchOrder
    (db.equipment_master.filter (fun r =>
      likeValue pat r.manufacturer || likeValue pat r.model ||
        likeValue pat r.equipment_type))

/-- Spec-side reading of the search contract (§4.3, §8 of the spec): the term
occurs in the text as a case-insensitive substring.  Declared for comparison
with the `LIKE`-based filter the source actually runs. -/
def ciContains (term s : String) : Bool :=
  ((s.data.map asciiLower).tails).any
    (fun t => (term.data.map asciiLower).isPrefixOf t)

/-- Spec-side substring condition lifted to a stored value. -/
def ciContainsValue (term : String) (v : Value) : Bool :=
  match v with
  | Value.text s => ciContains term s
  | _ => false

/-- A search term containing neither `LIKE` wildcard. -/
def noWildcards (term : String) : Prop :=
  ∀ c ∈ term.data, c ≠ '%' ∧ c ≠ '_'

/-- Allow-list of models.py `ProjectManager.update_project` (line 73). -/
def projectAllowedFields : List String :=
  ["name", "client", "job_number", "phase", "notes"]

/-- Allow-list of models.py `QuoteManager.update_quote` (lines 276-278). -/
def quoteAllowedFields : List String :=
  ["vendor", "price", "currency", "lead_time_weeks", "quote_date",
   "quote_number", "quote_file_path", "is_current", "notes"]

/-- Allow-list of models.py `DocumentManager.update_document` (lines 332-333). -/
def documentAllowedFields : List String :=
  ["document_type", "file_name", "file_path", "file_size_kb", "version",
   "document_date", "notes"]

/-- The SET clause the update managers build: `k = ?` per surviving field,
joined by commas. -/
def setClause (updates : Kwargs) : String :=
  String.intercalate ", " (updates.map (fun kv => kv.1 ++ " = ?"))

/-- A comma-separated list of `n` placeholders. -/
def qMarks (n : Nat) : String :=
  String.intercalate ", " (List.replicate n "?")

/-- One constructor per public mutating method of the five entity managers in
models.py.  Keyword arguments are kept where they shape the SQL text (dynamic
SET clauses, the dynamic column list of `create_equipment`); bound parameter
values never change which statements run. -/
inductive ManagerOp where
  | createProject : ManagerOp
  | updateProject : Kwargs → ManagerOp
  | deleteProject : ManagerOp
  | createEquipment : Kwargs → ManagerOp
  | updateEquipment : Kwargs → ManagerOp
  | deleteEquipment : ManagerOp
  | addEquipmentToProject : ManagerOp
  | updateProjectEquipment : Kwargs → ManagerOp
  | deleteProjectEquipment : ManagerOp
  | createQuote : ManagerOp
  | updateQuote : Kwargs → ManagerOp
  | deleteQuote : ManagerOp
  | createDocument : ManagerOp
  | updateDocument : Kwargs → ManagerOp
  | deleteDocument : ManagerOp
deriving DecidableEq, Repr

/-- The SQL statements a manager method hands to `execute_update`, in order,
with whitespace normalized.  Each list element is passed to one
`execute_update` call (models.py lines 33-41), which opens a connection,
executes the single statement, commits and closes — so each element is its
own transaction.  An update method whose filtered field set is empty returns
before reaching the store (the `if not updates: return` guard). -/
def opStatements : ManagerOp → List String
  | ManagerOp.createProject =>
    ["INSERT INTO projects (name, client, job_number, phase, notes) VALUES (?, ?, ?, ?, ?)"]
  | ManagerOp.updateProject kwargs =>
    let updates := kwargs.filter (fun kv => projectAllowedFields.contains kv.1)
    if updates.isEmpty then []
    else ["UPDATE projects SET " ++ setClause updates ++ " WHERE project_id = ?"]
  | ManagerOp.deleteProject =>
    ["DELETE FROM project_equipment WHERE project_id = ?",
     "DELETE FROM projects WHERE project_id = ?"]
  | ManagerOp.createEquipment kwargs =>
    let fields := ["manufacturer", "model", "equipment_type"] ++
      equipmentCreateFields.filter (fun f =>
        match kwargs.lookup f with
        | some v => decide (v ≠ Value.null)
        | none => false)
    ["INSERT INTO equipment_master (" ++ String.intercalate ", " fields ++
      ") VALUES (" ++ qMarks fields.length ++ ")"]
  | ManagerOp.updateEquipment kwargs =>
    let updates := kwargs.filter (fun kv => equipmentUpdateFields.contains kv.1)
    if updates.isEmpty then []
    else ["UPDATE equipment_master SET " ++ setClause updates ++ " WHERE equipment_id = ?"]
  | ManagerOp.deleteEquipment =>
    ["DELETE FROM equipment_master WHERE equipment_id = ?"]
  | ManagerOp.addEquipmentToProject =>
    ["INSERT INTO project_equipment (project_id, equipment_id, pid_tag, status, quantity, location, notes, selected_quote_id) VALUES (?, ?, ?, ?, ?, ?, ?, ?)"]
  | ManagerOp.updateProjectEquipment kwargs =>
    let updates := kwargs.filter (fun kv => peAllowedFields.contains kv.1)
    if updates.isEmpty then []
    else ["UPDATE project_equipment SET " ++ setClause updates ++ " WHERE instance_id = ?"]
  | ManagerOp.deleteProjectEquipment =>
    ["DELETE FROM project_equipment WHERE instance_id = ?"]
  | ManagerOp.createQuote =>
    ["INSERT INTO quotes (equipment_id, vendor, price, currency, lead_time_weeks, quote_date, quote_number, quote_file_path, is_current, notes) VALUES (?, ?, ?, ?, ?, ?, ?, ?, ?, ?)"]
  | ManagerOp.updateQuote kwargs =>
    let updates := kwargs.filter (fun kv => quoteAllowedFields.contains kv.1)
    if updates.isEmpty then []
    else ["UPDATE quotes SET " ++ setClause updates ++ " WHERE quote_id = ?"]
  | ManagerOp.deleteQuote =>
    ["DELETE FROM quotes WHERE quote_id = ?"]
  | ManagerOp.createDocument =>
    ["INSERT INTO documents (equipment_id, document_type, file_name, file_path, file_size_kb, version, document_date, notes) VALUES (?, ?, ?, ?, ?, ?, ?, ?)"]
  | ManagerOp.updateDocument kwargs =>
    let updates := kwargs.filter (fun kv => documentAllowedFields.contains kv.1)
    if updates.isEmpty then []
    else ["UPDATE documents SET " ++ setClause updates ++ " WHERE document_id = ?"]
  | ManagerOp.deleteDocument =>
    ["DELETE FROM documents WHERE document_id = ?"]

/-- Statement count the amended claim predicts: one per operation, except
`delete_project` (two) and update calls whose filtered field set is empty
(zero). -/
def expectedStatementCount : ManagerOp → Nat
  | ManagerOp.deleteProject => 2
  | ManagerOp.updateProject kwargs =>
    if (kwargs.filter (fun kv => projectAllowedFields.contains kv.1)).isEmpty then 0 else 1
  | ManagerOp.updateEquipment kwargs =>
    if (kwargs.filter (fun kv => equipmentUpdateFields.contains kv.1)).isEmpty then 0 else 1
  | ManagerOp.updateProjectEquipment kwargs =>
    if (kwargs.filter (fun kv => peAllowedFields.contains kv.1)).isEmpty then 0 else 1
  | ManagerOp.updateQuote kwargs =>
    if (kwargs.filter (fun kv => quoteAllowedFields.contains kv.1)).isEmpty then 0 else 1
  | ManagerOp.updateDocument kwargs =>
    if (kwargs.filter (fun kv => documentAllowedFields.contains kv.1)).isEmpty then 0 else 1
  | _ => 1

/-- One step of schema.py `reset_database` when the database file exists
(lines 175-192). -/
inductive ResetStep where
  | drop : String → ResetStep
  | invokeCreateDatabase : ResetStep
deriving DecidableEq, Repr

/-- schema.py `reset_database`: the five DROP TABLE IF EXISTS statements in
source order (lines 180-184), then the `create_database` call (line 192). -/
def reset_database_steps : List ResetStep :=
  [ResetStep.drop "documents", ResetStep.drop "quotes",
   ResetStep.drop "project_equipment", ResetStep.drop "equipment_master",
   ResetStep.drop "projects", ResetStep.invokeCreateDatabase]

/-- The table names `reset_database` drops, in drop order. -/
def resetDropOrder : List String :=
  reset_database_steps.filterMap (fun s =>
    match s with
    | ResetStep.drop t => some t
    | ResetStep.invokeCreateDatabase => none)

/-- The FOREIGN KEY edges (child table, parent table) declared by schema.py
`create_database`: `project_equipment` references `projects` (line 97),
`equipment_master` (line 98) and `quotes` (line 99); `quotes` (line 125) and
`documents` (line 147) reference `equipment_master`. -/
def foreignKeyEdges : List (String × String) :=
  [("project_equipment", "projects"),
   ("project_equipment", "equipment_master"),
   ("project_equipment", "quotes"),
   ("quotes", "equipment_master"),
   ("documents", "equipment_master")]

/-- Does `reset_database` drop table `c` before table `p`? -/
def droppedBefore (c p : String) : Bool :=
  decide (resetDropOrder.indexOf c < resetDropOrder.indexOf p)

/-- Database states reachable from the fresh database through the modelled
manager operations, each executed on a manager connection (foreign-key
enforcement off, as `get_connection` leaves it). -/
inductive Reachable : DB → Prop where
  | empty : Reachable emptyDB
  | addPE {db db' : DB} {p e i : Nat} {tag st qty loc nts sq : Value} :
      Reachable db →
      add_equipment_to_project managerForeignKeysOn db p e tag st qty loc nts sq =
        .ok (i, db') →
      Reachable db'
  | updatePE {db db' : DB} {i : Nat} {kwargs : Kwargs} :
      Reachable db → update_project_equipment db i kwargs = .ok db' → Reachable db'
  | deletePE {db : DB} {i : Nat} :
      Reachable db → Reachable (delete_project_equipment db i)
  | deleteProj {db : DB} {p : Nat} :
      Reachable db → Reachable (delete_project db p)
  | createEq {db db' : DB} {m mo t : String} {kwargs : Kwargs} {i : Nat} :
      Reachable db → create_equipment db m mo t kwargs = .ok (i, db') → Reachable db'
  | updateEq {db db' : DB} {e : Nat} {kwargs : Kwargs} :
      Reachable db → update_equipment db e kwargs = .ok db' → Reachable db'
  | deleteEq {db db' : DB} {e : Nat} :
      Reachable db → delete_equipment managerForeignKeysOn db e = .ok db' → Reachable db'

/-- Spec-side per-pair formulation of the project-scoped tag invariant: two
rows of one project never share a tag unless the tag is NULL. -/
def PEOk (a b : ProjectEquipmentRow) : Prop :=
  a.project_id = b.project_id → a.pid_tag = b.pid_tag → a.pid_tag = Value.null

/-- Spec-side table invariant for claim C9's amendment. -/
def peInvariant (db : DB) : Prop :=
  db.project_equipment.Pairwise PEOk

/-- Default row handed to `List.getD` when a table is indexed positionally. -/
def dummyPERow : ProjectEquipmentRow :=
  { instance_id := 0
    project_id := 0
    equipment_id := 0
    pid_tag := Value.null
    status := Value.text "new"
    quantity := Value.int 1
    location := Value.null
    notes := Value.null
    selected_quote_id := Value.null }

/-- Default row handed to `List.getD` when `equipment_master` is indexed
positionally. -/
def dummyEquipmentRow : EquipmentRow :=
  { equipment_id := 0
    manufacturer := Value.text ""
    model := Value.text ""
    equipment_type := Value.text ""
    equipment_subtype := Value.null
    power_hp := Value.null
    flow_gpm := Value.null
    head_ft := Value.null
    voltage := Value.null
    rpm := Value.null
    power_hp_verified := Value.null
    flow_gpm_verified := Value.null
    head_ft_verified := Value.null
    material := Value.null
    connection_size := Value.null
    weight_lbs := Value.null
    notes := Value.null }

/-- Concrete catalog row used by the concrete-state theorems. -/
def equipmentRow1 : EquipmentRow :=
  { dummyEquipmentRow with
      equipment_id := 1
      manufacturer := Value.text "Wilo"
      model := Value.text "EMU KPR 100"
      equipment_type := Value.text "Pump" }

/-- A second, unreferenced catalog row. -/
def equipmentRow2 : EquipmentRow :=
  { dummyEquipmentRow with
      equipment_id := 2
      manufacturer := Value.text "Sulzer"
      model := Value.text "XFP 100"
      equipment_type := Value.text "Pump" }

/-- Concrete project row used by the concrete-state theorems. -/
def projectRow1 : ProjectRow :=
  { project_id := 1
    name := Value.text "Rio Del Oro WWTP Upgrade"
    client := Value.null
    job_number := Value.null
    phase := Value.text "Design"
    notes := Value.null }

/-- Concrete instance row referencing project 1 and equipment 1. -/
def peRowA : ProjectEquipmentRow :=
  { instance_id := 1
    project_id := 1
    equipment_id := 1
    pid_tag := Value.text "P-101"
    status := Value.text "new"
    quantity := Value.int 2
    location := Value.null
    notes := Value.null
    selected_quote_id := Value.null }

/-- A second concrete instance row, same project, different tag. -/
def peRowB : ProjectEquipmentRow :=
  { instance_id := 2
    project_id := 1
    equipment_id := 2
    pid_tag := Value.text "P-102"
    status := Value.text "existing"
    quantity := Value.int 1
    location := Value.text "Headworks"
    notes := Value.null
    selected_quote_id := Value.null }

/-- The dangling instance row that the INSERT of C1's failing input stores. -/
def peRowDangling : ProjectEquipmentRow :=
  { instance_id := 1
    project_id := 999
    equipment_id := 999
    pid_tag := Value.null
    status := Value.text "new"
    quantity := Value.int 1
    location := Value.null
    notes := Value.null
    selected_quote_id := Value.null }

/-- State after C1's failing INSERT ran on a manager connection. -/
def dbDangling : DB :=
  { emptyDB with project_equipment := [peRowDangling], nextInstanceId := 2 }

/-- A state whose equipment row 1 is referenced by an instance row, with an
unreferenced equipment row 2 beside it. -/
def dbReferenced : DB :=
  { projects := [projectRow1]
    equipment_master := [equipmentRow1, equipmentRow2]
    project_equipment := [peRowA]
    quotes := []
    nextProjectId := 2
    nextEquipmentId := 3
    nextInstanceId := 2
    nextQuoteId := 1 }

/-- A state with two instance rows of the same project. -/
def dbInstances : DB :=
  { dbReferenced with project_equipment := [peRowA, peRowB], nextInstanceId := 3 }

/-- Two quotes for equipment 1, both flagged current — the data-integrity
anomaly C5 is about. -/
def quoteRow1 : QuoteRow :=
  { quote_id := 1
    equipment_id := 1
    vendor := Value.text "Xylem"
    price := Value.int 15000
    currency := Value.text "USD"
    lead_time_weeks := Value.int 12
    quote_date := Value.null
    quote_number := Value.null
    quote_file_path := Value.null
    is_current := Value.int 1
    notes := Value.null }

/-- The second concurrent current quote. -/
def quoteRow2 : QuoteRow :=
  { quoteRow1 with
      quote_id := 2
      vendor := Value.text "Sulzer"
      price := Value.int 14000 }

/-- State with two quotes flagged current for the same equipment. -/
def dbQuotes : DB :=
  { dbReferenced with quotes := [quoteRow1, quoteRow2], nextQuoteId := 3 }

/-- The mixed field set of the spec's update example: one allow-listed field,
one unknown field. -/
def kwargsMixed : Kwargs :=
  [("status", Value.text "replace"), ("bogus_field", Value.text "x")]

/-- Result of updating instance 1 of `dbInstances` with `kwargsMixed`. -/
def dbInstancesUpdated : DB :=
  { dbInstances with
      project_equipment := [{ peRowA with status := Value.text "replace" }, peRowB] }

/-- The INSERT models.py issues for a NULL-tagged instance of project 1 and
equipment 1 on a manager connection, as used by C9's counterexample. -/
def addNullTag (db : DB) : Except SqlError (Nat × DB) :=
  add_equipment_to_project managerForeignKeysOn db 1 1 Value.null (Value.text "new")
    (Value.int 1) Value.null Value.null Value.null

/-- A project-and-catalog-only state C9's counterexample starts from. -/
def dbTagStart : DB :=
  { dbReferenced with project_equipment := [], nextInstanceId := 1 }

/-- `dbTagStart` after one NULL-tagged insert. -/
def dbTagMid : DB :=
  { dbTagStart with
      project_equipment := [{ peRowDangling with project_id := 1, equipment_id := 1 }]
      nextInstanceId := 2 }

/-- `dbTagStart` after two NULL-tagged inserts: two rows of project 1 carry
the same (NULL) tag. -/
def dbTagEnd : DB :=
  { dbTagStart with
      project_equipment :=
        [{ peRowDangling with project_id := 1, equipment_id := 1 },
         { peRowDangling with instance_id := 2, project_id := 1, equipment_id := 1 }]
      nextInstanceId := 3 }

/-- The tagged row C9's witness state stores. -/
def peRowTagged : ProjectEquipmentRow :=
  { peRowDangling with project_id := 1, equipment_id := 1, pid_tag := Value.text "T-1" }

/-- A reachable state holding one tagged instance row: emptyDB after one
manager INSERT. -/
def dbTagged : DB :=
  { emptyDB with project_equipment := [peRowTagged], nextInstanceId := 2 }

/-- Catalog row 1 with a non-NULL notes column, for C10's witness. -/
def equipmentRow1n : EquipmentRow :=
  { equipmentRow1 with notes := Value.text "verify voltage" }

/-- `dbReferenced` with notes set on equipment row 1. -/
def dbNotes : DB :=
  { dbReferenced with equipment_master := [equipmentRow1n, equipmentRow2] }

/-- C1: the claim fails on the code.  `get_connection` (models.py lines
18-22) never issues `PRAGMA foreign_keys = ON`, so every entity-manager
statement runs with enforcement off: an INSERT referencing a project and an
equipment id that do not exist succeeds on a manager connection and stores a
dangling row, while the same statement on a connection with the pragma set —
what the spec describes — fails at the storage boundary. -/
theorem C1_managers_run_without_foreign_keys :
    managerForeignKeysOn = false ∧
    add_equipment_to_project managerForeignKeysOn emptyDB 999 999 Value.null
      (Value.text "new") (Value.int 1) Value.null Value.null Value.null =
      .ok (1, dbDangling) ∧
    dbDangling.projects = [] ∧ dbDangling.equipment_master = [] ∧
    add_equipment_to_project true emptyDB 999 999 Value.null
      (Value.text "new") (Value.int 1) Value.null Value.null Value.null =
      .error SqlError.foreignKeyViolation :=
  ⟨rfl, rfl, rfl, rfl, rfl⟩

/-- C2: the delete-restrict half of the claim fails on the code.  Equipment 1
of `dbReferenced` is referenced by instance row `peRowA`, yet
`delete_equipment` on a manager connection (foreign keys off) removes it and
leaves the reference dangling; the same statement with enforcement on — the
behaviour the claim and the method's own docstring describe — fails with the
RESTRICT violation.  The unreferenced half of the claim does hold: deleting
the unreferenced equipment 2 succeeds and removes exactly that row. -/
theorem C2_referenced_equipment_delete_not_restricted :
    dbReferenced.project_equipment.any (fun pe => decide (pe.equipment_id = 1)) = true ∧
    delete_equipment managerForeignKeysOn dbReferenced 1 =
      .ok { dbReferenced with equipment_master := [equipmentRow2] } ∧
    delete_equipment true dbReferenced 1 = .error SqlError.foreignKeyViolation ∧
    dbReferenced.project_equipment.any (fun pe => decide (pe.equipment_id = 2)) = false ∧
    delete_equipment managerForeignKeysOn dbReferenced 2 =
      .ok { dbReferenced with equipment_master := [equipmentRow1] } :=
  ⟨rfl, rfl, rfl, rfl, rfl⟩

/-- C3 counterexample: `ProjectManager.delete_project` issues two SQL
statements, not one, refuting the claim that every entity-manager mutation
executes exactly one statement. -/
theorem C3_counterexample_delete_project :
    (opStatements ManagerOp.deleteProject).length = 2 ∧
    ¬ (opStatements ManagerOp.deleteProject).length = 1 := by
  constructor
  · rfl
  · intro h
    simp [opStatements] at h

/-- C3 amended: every mutating manager method hands `execute_update` exactly
one statement — each committed as its own transaction by `execute_update` —
except `delete_project`, which issues two, and the update methods, which
issue none when no supplied field survives the allow-list filter. -/
theorem C3_amended_statement_counts (op : ManagerOp) :
    (opStatements op).length = expectedStatementCount op := by
  cases op <;>
    simp only [opStatements, expectedStatementCount] <;>
    first
      | rfl
      | (split <;> simp)

/-- C4 counterexample: `project_equipment` holds the foreign key
`selected_quote_id REFERENCES quotes(quote_id)`, yet `reset_database` drops
`quotes` before `project_equipment`, so the drop order is not
children-before-parents as claimed. -/
theorem C4_counterexample_quotes_dropped_early :
    ("project_equipment", "quotes") ∈ foreignKeyEdges ∧
    droppedBefore "project_equipment" "quotes" = false := by
  constructor
  · simp [foreignKeyEdges]
  · rfl

/-- C4 amended: `reset_database` drops the five tables in the fixed order
documents, quotes, project_equipment, equipment_master, projects and then
re-invokes `create_database`; every foreign-key edge is dropped
child-before-parent except `project_equipment` about `quotes`, whose parent
is dropped first. -/
theorem C4_amended_drop_order :
    (∀ c p : String, (c, p) ∈ foreignKeyEdges → (c, p) ≠ ("project_equipment", "quotes") →
      droppedBefore c p = true) ∧
    droppedBefore "project_equipment" "quotes" = false ∧
    reset_database_steps.getLast? = some ResetStep.invokeCreateDatabase := by
  refine ⟨?_, rfl, rfl⟩
  intro c p hmem hne
  simp only [foreignKeyEdges, List.mem_cons, List.mem_singleton, Prod.mk.injEq,
    List.not_mem_nil, or_false] at hmem
  rcases hmem with ⟨rfl, rfl⟩ | ⟨rfl, rfl⟩ | ⟨rfl, rfl⟩ | ⟨rfl, rfl⟩ | ⟨rfl, rfl⟩
  · rfl
  · rfl
  · exact absurd rfl hne
  · rfl
  · rfl

/-- C4 witness: the amended ordering statement at the documents table. -/
theorem C4_amended_drop_order_witness :
    ("documents", "equipment_master") ∈ foreignKeyEdges ∧
    ("documents", "equipment_master") ≠ (("project_equipment", "quotes") : String × String) ∧
    droppedBefore "documents" "equipment_master" = true :=
  ⟨by simp [foreignKeyEdges], by simp, C4_amended_drop_order.1 "documents" "equipment_master"
    (by simp [foreignKeyEdges]) (by simp)⟩

/-- Filtering by a predicate after keeping only its complement leaves
nothing. -/
theorem filter_filter_not_eq_nil (p : α → Bool) (l : List α) :
    (l.filter (fun a => ! p a)).filter p = [] := by
  induction l with
  | nil => rfl
  | cons a l ih =>
    cases h : p a <;> simp [List.filter_cons, h, ih]

/-- C7: after `delete_project`, the project row is gone, no instance row of
the project remains, and `get_project_equipment` on the deleted id returns
the empty list. -/
theorem C7_delete_project_removes_instances (db : DB) (project_id : Nat) :
    (delete_project db project_id).projects.filter
      (fun p => decide (p.project_id = project_id)) = [] ∧
    (delete_project db project_id).project_equipment.filter
      (fun pe => decide (pe.project_id = project_id)) = [] ∧
    get_project_equipment (delete_project db project_id) project_id = [] := by
  have hp : (delete_project db project_id).projects.filter
      (fun p => decide (p.project_id = project_id)) = [] := by
    simp only [delete_project, ne_eq, decide_not]
    exact filter_filter_not_eq_nil _ _
  have hpe : (delete_project db project_id).project_equipment.filter
      (fun pe => decide (pe.project_id = project_id)) = [] := by
    simp only [delete_project, ne_eq, decide_not]
    exact filter_filter_not_eq_nil _ _
  refine ⟨hp, hpe, ?_⟩
  simp [get_project_equipment, hpe]

/-- C5: `get_current_quote` returns at most one quote (an `Option`); any
returned quote is a stored quote of the requested equipment whose
`is_current` flag is set; and — the deterministic tie-break — on a table in
ascending quote-id order, which AUTOINCREMENT inserts produce, the returned
quote is the flagged-current one with the lowest quote id, so repeated calls
on the same state return the same quote. -/
theorem C5_get_current_quote_lowest_id :
    (∀ (db : DB) (equipment_id : Nat) (q : QuoteRow),
      get_current_quote db equipment_id = some q →
      q ∈ db.quotes ∧ q.equipment_id = equipment_id ∧ q.is_current = Value.int 1) ∧
    (∀ (db : DB) (equipment_id : Nat) (q : QuoteRow),
      db.quotes.Pairwise (fun a b => a.quote_id < b.quote_id) →
      get_current_quote db equipment_id = some q →
      ∀ q2 ∈ db.quotes, q2.equipment_id = equipment_id → q2.is_current = Value.int 1 →
        q.quote_id ≤ q2.quote_id) := by
  constructor
  · intro db eid q hq
    unfold get_current_quote at hq
    have hmem : q ∈ db.quotes.filter (fun q =>
        decide (q.equipment_id = eid) && decide (q.is_current = Value.int 1)) :=
      List.mem_of_mem_head? (by simp [hq])
    have hmem2 := List.mem_filter.1 hmem
    refine ⟨hmem2.1, ?_, ?_⟩
    · have := hmem2.2
      simp only [Bool.and_eq_true, decide_eq_true_eq] at this
      exact this.1
    · have := hmem2.2
      simp only [Bool.and_eq_true, decide_eq_true_eq] at this
      exact this.2
  · intro db eid q hsorted hq q2 hq2mem hq2eid hq2cur
    unfold get_current_quote at hq
    have hq2filt : q2 ∈ db.quotes.filter (fun q =>
        decide (q.equipment_id = eid) && decide (q.is_current = Value.int 1)) :=
      List.mem_filter.2 ⟨hq2mem, by simp [hq2eid, hq2cur]⟩
    have hfsorted : (db.quotes.filter (fun q =>
        decide (q.equipment_id = eid) && decide (q.is_current = Value.int 1))).Pairwise
        (fun a b => a.quote_id < b.quote_id) := hsorted.filter _
    rcases hfl : db.quotes.filter (fun q =>
        decide (q.equipment_id = eid) && decide (q.is_current = Value.int 1)) with _ | ⟨a, rest⟩
    · rw [hfl] at hq2filt
      exact absurd hq2filt (List.not_mem_nil q2)
    · rw [hfl] at hq hq2filt hfsorted
      have haq : a = q := by simpa using hq
      subst haq
      rcases List.mem_cons.1 hq2filt with rfl | hq2rest
      · exact Nat.le_refl _
      · exact Nat.le_of_lt ((List.pairwise_cons.1 hfsorted).1 q2 hq2rest)

/-- Setting an allow-listed instance field then reading it back yields the
written value. -/
theorem PE_getField_setField_self (r : ProjectEquipmentRow) (k : String) (v : Value)
    (hk : k ∈ peAllowedFields) : (r.setField k v).getField k = v := by
  simp only [peAllowedFields] at hk
  fin_cases hk <;> rfl

/-- Setting one instance field leaves every other named field unchanged. -/
theorem PE_getField_setField_ne (r : ProjectEquipmentRow) (k k2 : String) (v : Value)
    (h : k ≠ k2) : (r.setField k2 v).getField k = r.getField k := by
  unfold ProjectEquipmentRow.setField
  split_ifs <;> subst_vars <;> simp [ProjectEquipmentRow.getField, h]

/-- A SET clause never touches the id columns of an instance row. -/
theorem PE_applyUpdates_ids (updates : Kwargs) (r : ProjectEquipmentRow) :
    (ProjectEquipmentRow.applyUpdates updates r).instance_id = r.instance_id ∧
    (ProjectEquipmentRow.applyUpdates updates r).project_id = r.project_id ∧
    (ProjectEquipmentRow.applyUpdates updates r).equipment_id = r.equipment_id := by
  induction updates generalizing r with
  | nil => exact ⟨rfl, rfl, rfl⟩
  | cons kv rest ih =>
    have hset : (r.setField kv.1 kv.2).instance_id = r.instance_id ∧
        (r.setField kv.1 kv.2).project_id = r.project_id ∧
        (r.setField kv.1 kv.2).equipment_id = r.equipment_id := by
      unfold ProjectEquipmentRow.setField
      split_ifs <;> exact ⟨rfl, rfl, rfl⟩
    obtain ⟨i1, i2, i3⟩ := ih (r.setField kv.1 kv.2)
    simp only [ProjectEquipmentRow.applyUpdates, List.foldl_cons] at i1 i2 i3 ⊢
    exact ⟨i1.trans hset.1, i2.trans hset.2.1, i3.trans hset.2.2⟩

/-- An association list holds no binding for a key absent from its key list. -/
theorem lookup_eq_none_of_not_mem_keys {l : Kwargs} {k : String}
    (h : k ∉ l.map Prod.fst) : l.lookup k = none := by
  induction l with
  | nil => rfl
  | cons kv rest ih =>
    simp only [List.map_cons, List.mem_cons, not_or] at h
    have hb : (k == kv.1) = false := beq_eq_false_iff_ne.mpr h.1
    obtain ⟨k2, v⟩ := kv
    simp only [List.lookup, hb]
    exact ih h.2

/-- Reading a named field after a nodup-keyed SET clause of allow-listed
fields yields the assigned value when the clause carries the field and the
old value otherwise. -/
theorem PE_getField_applyUpdates (updates : Kwargs) (r : ProjectEquipmentRow)
    (hnd : (updates.map Prod.fst).Nodup)
    (hall : ∀ kv ∈ updates, kv.1 ∈ peAllowedFields)
    (k : String) (hk : k ∈ peAllowedFields) :
    (ProjectEquipmentRow.applyUpdates updates r).getField k =
      (updates.lookup k).getD (r.getField k) := by
  induction updates generalizing r with
  | nil => rfl
  | cons kv rest ih =>
    obtain ⟨k2, v⟩ := kv
    simp only [List.map_cons, List.nodup_cons] at hnd
    have hrest : ∀ kv ∈ rest, kv.1 ∈ peAllowedFields :=
      fun kv h => hall kv (List.mem_cons_of_mem _ h)
    by_cases hkk : k = k2
    · subst hkk
      have hnone : rest.lookup k = none := lookup_eq_none_of_not_mem_keys hnd.1
      have hih := ih (r.setField k v) hnd.2 hrest
      simp only [ProjectEquipmentRow.applyUpdates, List.foldl_cons] at hih ⊢
      rw [hih, hnone]
      simp [List.lookup,
        PE_getField_setField_self r k v hk]
    · have hb : (k == k2) = false := beq_eq_false_iff_ne.mpr hkk
      have hih := ih (r.setField k2 v) hnd.2 hrest
      simp only [ProjectEquipmentRow.applyUpdates, List.foldl_cons] at hih ⊢
      rw [hih, PE_getField_setField_ne r k k2 v hkk]
      simp [List.lookup, hb]

/-- Positional table lookup past the end yields the default row. -/
theorem getD_of_getElem?_none {α : Type} {l : List α} {n : Nat} {d : α}
    (h : l[n]? = none) : l.getD n d = d := by
  simp [List.getD, h]

/-- Positional table lookup in range yields the stored row. -/
theorem getD_of_getElem?_some {α : Type} {l : List α} {n : Nat} {d a : α}
    (h : l[n]? = some a) : l.getD n d = a := by
  simp [List.getD, h]

/-- Mapping preserves an out-of-range positional lookup. -/
theorem map_getElem?_none {α β : Type} {f : α → β} {l : List α} {n : Nat}
    (h : l[n]? = none) : (l.map f)[n]? = none := by
  simp [h]

/-- Mapping commutes with an in-range positional lookup. -/
theorem map_getElem?_some {α β : Type} {f : α → β} {l : List α} {n : Nat} {a : α}
    (h : l[n]? = some a) : (l.map f)[n]? = some (f a) := by
  simp [h]

/-- C6: a no-op field set returns the state unchanged; names outside the
allow-list are discarded before the statement is built; and a successful
update changes exactly the supplied allow-listed fields of the addressed
row — its id columns, every other field, every other row and every other
table are unchanged. -/
theorem C6_update_project_equipment_frame :
    (∀ (db : DB) (instance_id : Nat) (kwargs : Kwargs),
      kwargs.filter (fun kv => peAllowedFields.contains kv.1) = [] →
      update_project_equipment db instance_id kwargs = .ok db) ∧
    (∀ (db : DB) (instance_id : Nat) (kwargs : Kwargs),
      update_project_equipment db instance_id kwargs =
        update_project_equipment db instance_id
          (kwargs.filter (fun kv => peAllowedFields.contains kv.1))) ∧
    (∀ (db : DB) (instance_id : Nat) (kwargs : Kwargs) (db' : DB),
      (kwargs.map Prod.fst).Nodup →
      update_project_equipment db instance_id kwargs = .ok db' →
      db'.projects = db.projects ∧
      db'.equipment_master = db.equipment_master ∧
      db'.quotes = db.quotes ∧
      db'.project_equipment.length = db.project_equipment.length ∧
      (∀ n : Nat,
        ((db.project_equipment.getD n dummyPERow).instance_id ≠ instance_id →
          db'.project_equipment.getD n dummyPERow =
            db.project_equipment.getD n dummyPERow) ∧
        ((db.project_equipment.getD n dummyPERow).instance_id = instance_id →
          n < db.project_equipment.length →
          (db'.project_equipment.getD n dummyPERow).instance_id =
            (db.project_equipment.getD n dummyPERow).instance_id ∧
          (db'.project_equipment.getD n dummyPERow).project_id =
            (db.project_equipment.getD n dummyPERow).project_id ∧
          (db'.project_equipment.getD n dummyPERow).equipment_id =
            (db.project_equipment.getD n dummyPERow).equipment_id ∧
          ∀ k ∈ peAllowedFields,
            (db'.project_equipment.getD n dummyPERow).getField k =
              ((kwargs.filter (fun kv => peAllowedFields.contains kv.1)).lookup k).getD
                ((db.project_equipment.getD n dummyPERow).getField k)))) := by
  refine ⟨?_, ?_, ?_⟩
  · intro db iid kwargs hfl
    have hemp : (kwargs.filter (fun kv => peAllowedFields.contains kv.1)).isEmpty = true := by
      rw [hfl]
      rfl
    simp only [update_project_equipment]
    rw [if_pos hemp]
  · intro db iid kwargs
    have hff : ((kwargs.filter (fun kv => peAllowedFields.contains kv.1)).filter
        (fun kv => peAllowedFields.contains kv.1)) =
        kwargs.filter (fun kv => peAllowedFields.contains kv.1) := by
      rw [List.filter_filter]
      simp only [Bool.and_self]
    simp only [update_project_equipment, hff]
  · intro db iid kwargs db' hnd hok
    have hnd2 : ((kwargs.filter (fun kv => peAllowedFields.contains kv.1)).map
        Prod.fst).Nodup :=
      hnd.sublist ((List.filter_sublist kwargs).map Prod.fst)
    have hall : ∀ kv ∈ kwargs.filter (fun kv => peAllowedFields.contains kv.1),
        kv.1 ∈ peAllowedFields := by
      intro kv hkv
      have := (List.mem_filter.1 hkv).2
      simpa using this
    simp only [update_project_equipment] at hok
    by_cases hemp : (kwargs.filter (fun kv => peAllowedFields.contains kv.1)).isEmpty = true
    · rw [if_pos hemp] at hok
      cases hok
      have hfl : kwargs.filter (fun kv => peAllowedFields.contains kv.1) = [] :=
        List.isEmpty_iff.1 hemp
      refine ⟨rfl, rfl, rfl, rfl, fun n => ⟨fun _ => rfl, fun _ _ => ⟨rfl, rfl, rfl, ?_⟩⟩⟩
      intro k _
      rw [hfl]
      rfl
    · rw [if_neg hemp] at hok
      split at hok
      · exact Except.noConfusion hok
      · by_cases huniq : peUniqueOk (db.project_equipment.map (fun r =>
            if r.instance_id = iid then
              ProjectEquipmentRow.applyUpdates
                (kwargs.filter (fun kv => peAllowedFields.contains kv.1)) r
            else r)) = false
        · rw [if_pos huniq] at hok
          exact Except.noConfusion hok
        · rw [if_neg huniq] at hok
          cases hok
          refine ⟨rfl, rfl, rfl, by simp, fun n => ⟨?_, ?_⟩⟩
          · intro hne
            rcases hn : db.project_equipment[n]? with _ | r
            · show (db.project_equipment.map _).getD n dummyPERow = _
              rw [getD_of_getElem?_none (map_getElem?_none hn), getD_of_getElem?_none hn]
            · rw [getD_of_getElem?_some hn] at hne
              show (db.project_equipment.map _).getD n dummyPERow = _
              rw [getD_of_getElem?_some (map_getElem?_some hn),
                getD_of_getElem?_some hn, if_neg hne]
          · intro heq hlt
            rcases hn : db.project_equipment[n]? with _ | r
            · rw [List.getElem?_eq_none_iff] at hn
              omega
            · rw [getD_of_getElem?_some hn] at heq
              have hmap : ((db.project_equipment.map (fun r =>
                  if r.instance_id = iid then
                    ProjectEquipmentRow.applyUpdates
                      (kwargs.filter (fun kv => peAllowedFields.contains kv.1)) r
                  else r)).getD n dummyPERow) =
                  ProjectEquipmentRow.applyUpdates
                    (kwargs.filter (fun kv => peAllowedFields.contains kv.1)) r := by
                rw [getD_of_getElem?_some (map_getElem?_some hn), if_pos heq]
              show ((db.project_equipment.map _).getD n dummyPERow).instance_id = _ ∧ _
              rw [hmap, getD_of_getElem?_some hn]
              obtain ⟨i1, i2, i3⟩ := PE_applyUpdates_ids
                (kwargs.filter (fun kv => peAllowedFields.contains kv.1)) r
              exact ⟨i1, i2, i3, fun k hk =>
                PE_getField_applyUpdates _ r hnd2 hall k hk⟩

/-- C6 witness: the spec's example field set on a concrete two-row state —
`status` is applied to instance 1, `bogus_field` is dropped, the second row
and the id columns are untouched. -/
theorem C6_update_project_equipment_frame_witness :
    (kwargsMixed.map Prod.fst).Nodup ∧
    update_project_equipment dbInstances 1 kwargsMixed = .ok dbInstancesUpdated ∧
    (kwargsMixed.filter (fun kv => peAllowedFields.contains kv.1)).lookup "status" =
      some (Value.text "replace") ∧
    (dbInstancesUpdated.project_equipment.getD 0 dummyPERow).getField "status" =
      ((kwargsMixed.filter (fun kv => peAllowedFields.contains kv.1)).lookup "status").getD
        ((dbInstances.project_equipment.getD 0 dummyPERow).getField "status") ∧
    dbInstancesUpdated.project_equipment.getD 1 dummyPERow =
      dbInstances.project_equipment.getD 1 dummyPERow := by
  have h := C6_update_project_equipment_frame.2.2 dbInstances 1 kwargsMixed
    dbInstancesUpdated (by decide) (by rfl)
  refine ⟨by decide, by rfl, by rfl, ?_, ?_⟩
  · exact ((h.2.2.2.2 0).2 (by decide) (by decide)).2.2.2 "status" (by decide)
  · exact (h.2.2.2.2 1).1 (by decide)

/-- Every suffix list ends with the empty suffix, so scanning for an empty
suffix always succeeds. -/
theorem tails_any_isEmpty (l : List Char) : l.tails.any (fun t => t.isEmpty) = true := by
  induction l with
  | nil => rfl
  | cons a l ih => simp [List.tails, ih]

/-- A bare `%` pattern matches every string. -/
theorem likeMatch_percent_only (s : List Char) : likeMatch ['%'] s = true := by
  have h : likeMatch ['%'] s = s.tails.any (fun s2 => likeMatch [] s2) := by
    simp [likeMatch]
  rw [h]
  exact tails_any_isEmpty s

/-- The `LIKE` character test is boolean equality after ASCII folding. -/
theorem charLikeEq_eq_beq (c d : Char) :
    charLikeEq c d = (asciiLower c == asciiLower d) := by
  by_cases h : asciiLower c = asciiLower d <;> simp [charLikeEq, h]

/-- A wildcard-free pattern followed by `%` matches exactly the strings it
prefixes up to ASCII case. -/
theorem likeMatch_plain_percent (t : List Char) (hw : ∀ c ∈ t, c ≠ '%' ∧ c ≠ '_') :
    ∀ s : List Char, likeMatch (t ++ ['%']) s =
      (t.map asciiLower).isPrefixOf (s.map asciiLower) := by
  induction t with
  | nil =>
    intro s
    simp only [List.nil_append, List.map_nil]
    rw [likeMatch_percent_only]
    simp [List.isPrefixOf]
  | cons c t ih =>
    intro s
    obtain ⟨hc1, hc2⟩ := hw c (List.mem_cons_self c t)
    have hwt : ∀ c ∈ t, c ≠ '%' ∧ c ≠ '_' := fun c h => hw c (List.mem_cons_of_mem _ h)
    cases s with
    | nil =>
      simp [likeMatch, hc1, List.isPrefixOf]
    | cons d s2 =>
      have hstep : likeMatch (c :: t ++ ['%']) (d :: s2) =
          ((decide (c = '_') || charLikeEq c d) && likeMatch (t ++ ['%']) s2) := by
        simp [likeMatch, hc1]
      rw [List.cons_append] at hstep ⊢
      rw [hstep, ih hwt s2]
      simp [List.isPrefixOf, hc2, charLikeEq_eq_beq]

/-- On a wildcard-free term, the `%term%` filter the source runs coincides
with the spec's case-insensitive substring condition. -/
theorem likeValue_eq_ciContainsValue (term : String) (hw : noWildcards term) (v : Value) :
    likeValue ("%" ++ term ++ "%").data v = ciContainsValue term v := by
  cases v with
  | null => rfl
  | int i => rfl
  | text s =>
    show likeMatch ("%" ++ term ++ "%").data s.data = ciContains term s
    have hdata : ("%" ++ term ++ "%").data = '%' :: (term.data ++ ['%']) := by
      simp [String.data_append]
    rw [hdata]
    have hperc : likeMatch ('%' :: (term.data ++ ['%'])) s.data =
        s.data.tails.any (fun s2 => likeMatch (term.data ++ ['%']) s2) := by
      simp [likeMatch]
    rw [hperc]
    have hpt : (fun s2 => likeMatch (term.data ++ ['%']) s2) =
        (fun s2 : List Char =>
          (term.data.map asciiLower).isPrefixOf (s2.map asciiLower)) := by
      funext s2
      exact likeMatch_plain_percent term.data hw s2
    rw [hpt]
    unfold ciContains
    rw [List.map_tails, List.any_map]
    rfl

/-- BINARY text comparison is total. -/
theorem charListLe_total (s t : List Char) :
    charListLe s t = true ∨ charListLe t s = true := by
  induction s generalizing t with
  | nil => exact Or.inl rfl
  | cons c cs ih =>
    cases t with
    | nil => exact Or.inr rfl
    | cons d ds =>
      by_cases h : c = d
      · subst h
        simp only [charListLe, if_pos rfl]
        exact ih ds
      · have hdc : d ≠ c := fun hh => h hh.symm
        rcases lt_or_gt_of_ne h with hlt | hgt
        · refine Or.inl ?_
          simp only [charListLe, if_neg h]
          exact decide_eq_true hlt
        · refine Or.inr ?_
          simp only [charListLe, if_neg hdc]
          exact decide_eq_true hgt

/-- BINARY text comparison is transitive. -/
theorem charListLe_trans {s t u : List Char} (h1 : charListLe s t = true)
    (h2 : charListLe t u = true) : charListLe s u = true := by
  induction s generalizing t u with
  | nil => rfl
  | cons c cs ih =>
    cases t with
    | nil => exact absurd h1 (by simp [charListLe])
    | cons d ds =>
      cases u with
      | nil => exact absurd h2 (by simp [charListLe])
      | cons e es =>
        simp only [charListLe] at h1 h2 ⊢
        by_cases hcd : c = d <;> by_cases hde : d = e
        · subst hcd
          subst hde
          rw [if_pos rfl] at h1 h2 ⊢
          exact ih h1 h2
        · subst hcd
          rw [if_pos rfl] at h1
          rw [if_neg hde] at h2 ⊢
          exact h2
        · subst hde
          rw [if_neg hcd] at h1 ⊢
          exact h1
        · rw [if_neg hcd, decide_eq_true_eq] at h1
          rw [if_neg hde, decide_eq_true_eq] at h2
          have hce : c < e := lt_trans h1 h2
          rw [if_neg (ne_of_lt hce)]
          exact decide_eq_true hce

/-- BINARY text comparison is antisymmetric. -/
theorem charListLe_antisymm {s t : List Char} (h1 : charListLe s t = true)
    (h2 : charListLe t s = true) : s = t := by
  induction s generalizing t with
  | nil =>
    cases t with
    | nil => rfl
    | cons d ds => exact absurd h2 (by simp [charListLe])
  | cons c cs ih =>
    cases t with
    | nil => exact absurd h1 (by simp [charListLe])
    | cons d ds =>
      by_cases hcd : c = d
      · subst hcd
        simp only [charListLe, if_pos rfl] at h1 h2
        rw [ih h1 h2]
      · have hdc : d ≠ c := fun hh => hcd hh.symm
        simp only [charListLe, if_neg hcd, decide_eq_true_eq] at h1
        simp only [charListLe, if_neg hdc, decide_eq_true_eq] at h2
        exact absurd (lt_trans h1 h2) (lt_irrefl c)

/-- SQLite's default value order is total. -/
theorem Value.leb_total (a b : Value) : Value.leb a b = true ∨ Value.leb b a = true := by
  cases a <;> cases b <;>
    first
      | exact Or.inl rfl
      | exact Or.inr rfl
      | (simp only [Value.leb, decide_eq_true_eq]; omega)
      | exact charListLe_total _ _

/-- SQLite's default value order is transitive. -/
theorem Value.leb_trans {a b c : Value} (h1 : Value.leb a b = true)
    (h2 : Value.leb b c = true) : Value.leb a c = true := by
  cases a <;> cases b <;> cases c <;>
    simp only [Value.leb, decide_eq_true_eq] at h1 h2 ⊢ <;>
    first
      | rfl
      | exact h1
      | exact h2
      | exact absurd h1 Bool.false_ne_true
      | exact absurd h2 Bool.false_ne_true
      | omega
      | exact charListLe_trans h1 h2

/-- SQLite's default value order is antisymmetric. -/
theorem Value.leb_antisymm {a b : Value} (h1 : Value.leb a b = true)
    (h2 : Value.leb b a = true) : a = b := by
  cases a <;> cases b <;>
    simp only [Value.leb, decide_eq_true_eq] at h1 h2 <;>
    first
      | rfl
      | exact absurd h1 Bool.false_ne_true
      | exact absurd h2 Bool.false_ne_true
      | exact congrArg Value.int (le_antisymm h1 h2)
      | exact congrArg Value.text (congrArg String.mk (charListLe_antisymm h1 h2))

/-- The manufacturer-then-model order is total. -/
theorem searchOrder_total (a b : EquipmentRow) : searchOrder a b ∨ searchOrder b a := by
  unfold searchOrder
  by_cases h : a.manufacturer = b.manufacturer
  · rw [if_pos h, if_pos h.symm]
    exact Value.leb_total _ _
  · rw [if_neg h, if_neg (fun hh => h hh.symm)]
    exact Value.leb_total _ _

/-- The manufacturer-then-model order is transitive. -/
theorem searchOrder_trans {a b c : EquipmentRow} (h1 : searchOrder a b)
    (h2 : searchOrder b c) : searchOrder a c := by
  unfold searchOrder at h1 h2 ⊢
  by_cases hab : a.manufacturer = b.manufacturer <;>
    by_cases hbc : b.manufacturer = c.manufacturer
  · rw [if_pos hab] at h1
    rw [if_pos hbc] at h2
    rw [if_pos (hab.trans hbc)]
    exact Value.leb_trans h1 h2
  · rw [if_pos hab] at h1
    rw [if_neg hbc] at h2
    rw [if_neg (fun h => hbc (hab ▸ h)), hab]
    exact h2
  · rw [if_neg hab] at h1
    rw [if_pos hbc] at h2
    rw [if_neg (fun h => hab (h.trans hbc.symm)), ← hbc]
    exact h1
  · rw [if_neg hab] at h1
    rw [if_neg hbc] at h2
    by_cases hac : a.manufacturer = c.manufacturer
    · exact absurd (Value.leb_antisymm h1 (hac ▸ h2)) hab
    · rw [if_neg hac]
      exact Value.leb_trans h1 h2

/-- C8 counterexample: the term is passed into a `LIKE` pattern unescaped, so
a term containing a wildcard returns rows that do not contain it as a
substring — `search_equipment "_"` returns both catalog rows of
`dbReferenced` although neither contains an underscore in any searched
column. -/
theorem C8_counterexample_wildcard_term :
    search_equipment dbReferenced "_" = [equipmentRow2, equipmentRow1] ∧
    ciContainsValue "_" equipmentRow1.manufacturer = false ∧
    ciContainsValue "_" equipmentRow1.model = false ∧
    ciContainsValue "_" equipmentRow1.equipment_type = false ∧
    ciContainsValue "_" equipmentRow2.manufacturer = false ∧
    ciContainsValue "_" equipmentRow2.model = false ∧
    ciContainsValue "_" equipmentRow2.equipment_type = false := by
  refine ⟨by decide, rfl, rfl, rfl, rfl, rfl, rfl⟩

/-- C8 amended: for every wildcard-free search term, `search_equipment`
returns exactly the catalog rows with the term as a case-insensitive
substring of manufacturer, model or type, ordered by manufacturer then
model; terms containing `%` or `_` are interpreted as `LIKE` wildcards
instead. -/
theorem C8_amended_search (db : DB) (term : String) (hw : noWildcards term) :
    (∀ r : EquipmentRow, r ∈ search_equipment db term ↔
      r ∈ db.equipment_master ∧
        (ciContainsValue term r.manufacturer || ciContainsValue term r.model ||
         ciContainsValue term r.equipment_type) = true) ∧
    List.Sorted searchOrder (search_equipment db term) := by
  constructor
  · intro r
    have hfeq : (fun r : EquipmentRow =>
        likeValue ("%" ++ term ++ "%").data r.manufacturer ||
          likeValue ("%" ++ term ++ "%").data r.model ||
          likeValue ("%" ++ term ++ "%").data r.equipment_type) =
        (fun r : EquipmentRow =>
          ciContainsValue term r.manufacturer || ciContainsValue term r.model ||
            ciContainsValue term r.equipment_type) := by
      funext r
      rw [likeValue_eq_ciContainsValue term hw, likeValue_eq_ciContainsValue term hw,
        likeValue_eq_ciContainsValue term hw]
    simp only [search_equipment]
    rw [hfeq, List.Perm.mem_iff (List.perm_insertionSort _ _), List.mem_filter]
  · haveI : IsTotal EquipmentRow searchOrder := ⟨searchOrder_total⟩
    haveI : IsTrans EquipmentRow searchOrder :=
      ⟨fun _ _ _ h1 h2 => searchOrder_trans h1 h2⟩
    exact List.sorted_insertionSort searchOrder _

/-- C8 witness: the amended statement at the spec's own example term. -/
theorem C8_amended_search_witness :
    noWildcards "wilo" ∧
    (equipmentRow1 ∈ search_equipment dbReferenced "wilo" ↔
      equipmentRow1 ∈ dbReferenced.equipment_master ∧
        (ciContainsValue "wilo" equipmentRow1.manufacturer ||
         ciContainsValue "wilo" equipmentRow1.model ||
         ciContainsValue "wilo" equipmentRow1.equipment_type) = true) ∧
    List.Sorted searchOrder (search_equipment dbReferenced "wilo") := by
  have hw : noWildcards "wilo" := by
    unfold noWildcards
    decide
  exact ⟨hw, (C8_amended_search dbReferenced "wilo" hw).1 equipmentRow1,
    (C8_amended_search dbReferenced "wilo" hw).2⟩

/-- C5 witness: with two quotes both flagged current for equipment 1, the
manager returns the one with the lower id. -/
theorem C5_get_current_quote_lowest_id_witness :
    dbQuotes.quotes.Pairwise (fun a b => a.quote_id < b.quote_id) ∧
    get_current_quote dbQuotes 1 = some quoteRow1 ∧
    quoteRow2 ∈ dbQuotes.quotes ∧ quoteRow2.equipment_id = 1 ∧
    quoteRow2.is_current = Value.int 1 ∧
    quoteRow1.quote_id ≤ quoteRow2.quote_id :=
  ⟨by decide, rfl, by decide, rfl, rfl,
    C5_get_current_quote_lowest_id.2 dbQuotes 1 quoteRow1 (by decide) rfl quoteRow2
      (by decide) rfl rfl⟩

/-- The UNIQUE conflict test agrees with the spec-side pair condition. -/
theorem peNoConflict_iff (a b : ProjectEquipmentRow) :
    peNoConflict a b = true ↔ PEOk a b := by
  unfold peNoConflict PEOk
  rw [decide_eq_true_eq]
  constructor
  · intro h hproj htag
    by_contra hnull
    exact h ⟨hnull, hproj, htag⟩
  · rintro h ⟨hnn, hproj, htag⟩
    exact hnn (h hproj htag)

/-- The boolean table-level UNIQUE check is the pairwise invariant. -/
theorem peUniqueOk_iff (l : List ProjectEquipmentRow) :
    peUniqueOk l = true ↔ l.Pairwise PEOk := by
  induction l with
  | nil => simp [peUniqueOk]
  | cons r rs ih =>
    simp only [peUniqueOk, Bool.and_eq_true, List.pairwise_cons, List.all_eq_true, ih]
    constructor
    · rintro ⟨h1, h2⟩
      exact ⟨fun b hb => (peNoConflict_iff r b).1 (h1 b hb), h2⟩
    · rintro ⟨h1, h2⟩
      exact ⟨fun b hb => (peNoConflict_iff r b).2 (h1 b hb), h2⟩

/-- Appending a row that conflicts with no stored row preserves the pairwise
invariant. -/
theorem pairwise_append_singleton {l : List ProjectEquipmentRow}
    {r : ProjectEquipmentRow} (hl : l.Pairwise PEOk) (hr : ∀ a ∈ l, PEOk a r) :
    (l ++ [r]).Pairwise PEOk := by
  rw [List.pairwise_append]
  refine ⟨hl, List.pairwise_singleton _ _, fun a ha b hb => ?_⟩
  rw [List.mem_singleton] at hb
  subst hb
  exact hr a ha

/-- A row whose status is the default `new` passes the row constraints. -/
theorem peRowError_status_new (r : ProjectEquipmentRow)
    (h : r.status = Value.text "new") : peRowError r = none := by
  unfold peRowError
  rw [h]
  rfl

/-- Claim C9's amended invariant holds in every reachable state. -/
theorem reachable_peInvariant {db : DB} (h : Reachable db) : peInvariant db := by
  induction h with
  | empty => exact List.Pairwise.nil
  | @addPE db db' p e i tag st qty loc nts sq hr hok ih =>
    simp only [add_equipment_to_project, managerForeignKeysOn, Bool.false_and] at hok
    split at hok
    · exact Except.noConfusion hok
    · by_cases hall : (db.project_equipment.all fun a =>
          peNoConflict a
            { instance_id := db.nextInstanceId, project_id := p, equipment_id := e,
              pid_tag := tag, status := st, quantity := qty, location := loc,
              notes := nts, selected_quote_id := sq }) = false
      · rw [if_pos hall] at hok
        exact Except.noConfusion hok
      · rw [if_neg hall] at hok
        rw [if_neg (by simp)] at hok
        cases hok
        have hallT : (db.project_equipment.all fun a =>
            peNoConflict a
              { instance_id := db.nextInstanceId, project_id := p, equipment_id := e,
                pid_tag := tag, status := st, quantity := qty, location := loc,
                notes := nts, selected_quote_id := sq }) = true := by
          cases hB : (db.project_equipment.all fun a =>
              peNoConflict a
                { instance_id := db.nextInstanceId, project_id := p, equipment_id := e,
                  pid_tag := tag, status := st, quantity := qty, location := loc,
                  notes := nts, selected_quote_id := sq })
          · exact absurd hB hall
          · rfl
        refine pairwise_append_singleton ih ?_
        intro a ha
        exact (peNoConflict_iff _ _).1 (List.all_eq_true.1 hallT a ha)
  | @updatePE db db' i kwargs hr hok ih =>
    simp only [update_project_equipment] at hok
    by_cases hemp : (kwargs.filter (fun kv => peAllowedFields.contains kv.1)).isEmpty = true
    · rw [if_pos hemp] at hok
      cases hok
      exact ih
    · rw [if_neg hemp] at hok
      split at hok
      · exact Except.noConfusion hok
      · by_cases huniq : peUniqueOk (db.project_equipment.map (fun r =>
            if r.instance_id = i then
              ProjectEquipmentRow.applyUpdates
                (kwargs.filter (fun kv => peAllowedFields.contains kv.1)) r
            else r)) = false
        · rw [if_pos huniq] at hok
          exact Except.noConfusion hok
        · rw [if_neg huniq] at hok
          cases hok
          refine (peUniqueOk_iff _).1 ?_
          cases hB : peUniqueOk (db.project_equipment.map (fun r =>
              if r.instance_id = i then
                ProjectEquipmentRow.applyUpdates
                  (kwargs.filter (fun kv => peAllowedFields.contains kv.1)) r
              else r))
          · exact absurd hB huniq
          · rfl
  | deletePE hr ih => exact ih.filter _
  | deleteProj hr ih => exact ih.filter _
  | @createEq db db' m mo t kwargs i hr hok ih =>
    simp only [create_equipment] at hok
    split at hok
    · exact Except.noConfusion hok
    · cases hok
      exact ih
  | @updateEq db db' e kwargs hr hok ih =>
    simp only [update_equipment] at hok
    by_cases hemp : (kwargs.filter (fun kv => equipmentUpdateFields.contains kv.1)).isEmpty = true
    · rw [if_pos hemp] at hok
      cases hok
      exact ih
    · rw [if_neg hemp] at hok
      split at hok
      · exact Except.noConfusion hok
      · split at hok
        · exact Except.noConfusion hok
        · cases hok
          exact ih
  | @deleteEq db db' e hr hok ih =>
    simp only [delete_equipment, managerForeignKeysOn, Bool.false_and,
      Bool.false_eq_true, if_false] at hok
    cases hok
    exact ih

/-- C9 counterexample: SQLite's composite UNIQUE index ignores NULLs, so two
NULL-tagged instances of the same project both insert successfully — the
state then carries two rows of project 1 with the same (NULL) `pid_tag`,
refuting the claim for the NULL tag the API inserts by default. -/
theorem C9_counterexample_null_tags :
    addNullTag dbTagStart = .ok (1, dbTagMid) ∧
    addNullTag dbTagMid = .ok (2, dbTagEnd) ∧
    dbTagEnd.project_equipment.map (fun r => (r.project_id, r.pid_tag)) =
      [(1, Value.null), (1, Value.null)] :=
  ⟨rfl, rfl, rfl⟩

/-- C9 amended: in every reachable state no two instance rows of one project
share a non-NULL `pid_tag`; inserting a second instance with an already-used
non-NULL `(project_id, pid_tag)` pair fails with a uniqueness violation;
inserting the same tag under a conflict-free other project succeeds.
NULL tags are exempt — the UNIQUE index admits any number of them. -/
theorem C9_amended_project_scoped_tags :
    (∀ db : DB, Reachable db → peInvariant db) ∧
    (∀ (db : DB) (p e : Nat) (tag qty loc nts sq : Value),
      tag ≠ Value.null →
      (∃ pe ∈ db.project_equipment, pe.project_id = p ∧ pe.pid_tag = tag) →
      add_equipment_to_project managerForeignKeysOn db p e tag (Value.text "new")
        qty loc nts sq = .error SqlError.uniqueViolation) ∧
    (∀ (db : DB) (p e : Nat) (tag qty loc nts sq : Value),
      (∀ pe ∈ db.project_equipment, ¬ (pe.project_id = p ∧ pe.pid_tag = tag)) →
      (add_equipment_to_project managerForeignKeysOn db p e tag (Value.text "new")
        qty loc nts sq).isOk = true) := by
  refine ⟨fun db h => reachable_peInvariant h, ?_, ?_⟩
  · rintro db p e tag qty loc nts sq hne ⟨pe, hmem, hproj, htag⟩
    have hconf : peNoConflict pe
        { instance_id := db.nextInstanceId, project_id := p, equipment_id := e,
          pid_tag := tag, status := Value.text "new", quantity := qty,
          location := loc, notes := nts, selected_quote_id := sq } = false := by
      unfold peNoConflict
      refine decide_eq_false (not_not_intro ⟨?_, hproj, htag⟩)
      rw [htag]
      exact hne
    have hall : (db.project_equipment.all fun a =>
        peNoConflict a
          { instance_id := db.nextInstanceId, project_id := p, equipment_id := e,
            pid_tag := tag, status := Value.text "new", quantity := qty,
            location := loc, notes := nts, selected_quote_id := sq }) = false := by
      rcases hA : (db.project_equipment.all fun a => peNoConflict a _) with _ | _
      · rfl
      · have := List.all_eq_true.1 hA pe hmem
        rw [hconf] at this
        exact absurd this Bool.false_ne_true
    simp only [add_equipment_to_project, managerForeignKeysOn, Bool.false_and]
    rw [peRowError_status_new _ rfl]
    rw [if_pos hall]
  · intro db p e tag qty loc nts sq hfree
    have hall : (db.project_equipment.all fun a =>
        peNoConflict a
          { instance_id := db.nextInstanceId, project_id := p, equipment_id := e,
            pid_tag := tag, status := Value.text "new", quantity := qty,
            location := loc, notes := nts, selected_quote_id := sq }) = true := by
      rw [List.all_eq_true]
      intro a ha
      unfold peNoConflict
      refine decide_eq_true ?_
      rintro ⟨_, hproj, htag⟩
      exact hfree a ha ⟨hproj, htag⟩
    simp only [add_equipment_to_project, managerForeignKeysOn, Bool.false_and]
    rw [peRowError_status_new _ rfl]
    rw [if_neg (by simp [hall])]
    rw [if_neg (by simp)]
    rfl

/-- C9 witness: the amended statement on a reachable one-row state. -/
theorem C9_amended_project_scoped_tags_witness :
    peInvariant dbTagged ∧
    add_equipment_to_project managerForeignKeysOn dbTagged 1 1 (Value.text "T-1")
      (Value.text "new") (Value.int 1) Value.null Value.null Value.null =
      .error SqlError.uniqueViolation ∧
    (add_equipment_to_project managerForeignKeysOn dbTagged 2 1 (Value.text "T-1")
      (Value.text "new") (Value.int 1) Value.null Value.null Value.null).isOk = true := by
  have hreach : Reachable dbTagged :=
    @Reachable.addPE emptyDB dbTagged 1 1 1 (Value.text "T-1") (Value.text "new")
      (Value.int 1) Value.null Value.null Value.null Reachable.empty rfl
  refine ⟨C9_amended_project_scoped_tags.1 dbTagged hreach, ?_, ?_⟩
  · exact C9_amended_project_scoped_tags.2.1 dbTagged 1 1 (Value.text "T-1")
      (Value.int 1) Value.null Value.null Value.null (by decide)
      ⟨peRowTagged, by decide, by decide, by decide⟩
  · exact C9_amended_project_scoped_tags.2.2 dbTagged 2 1 (Value.text "T-1")
      (Value.int 1) Value.null Value.null Value.null (by decide)

/-- Removing one key's entries from an association list leaves other keys'
lookups unchanged. -/
theorem lookup_filter_ne {l : Kwargs} {f g : String} (h : g ≠ f) :
    (l.filter (fun kv => decide (kv.1 ≠ f))).lookup g = l.lookup g := by
  induction l with
  | nil => rfl
  | cons kv rest ih =>
    obtain ⟨k, v⟩ := kv
    by_cases hkf : k = f
    · subst hkf
      have hgk : (g == k) = false := beq_eq_false_iff_ne.mpr h
      have hp : (decide ((k, v).1 ≠ k)) = false := by simp
      rw [List.filter_cons, hp]
      simp only [List.lookup, hgk, Bool.false_eq_true, if_false]
      exact ih
    · have hp : decide ((k, v).1 ≠ f) = true := by
        simp [hkf]
      simp only [List.filter_cons, hp, if_true, List.lookup]
      cases hgk : g == k
      · exact ih
      · rfl

/-- Removing a key's entries from an association list makes its lookup fail. -/
theorem lookup_filter_self {l : Kwargs} {f : String} :
    (l.filter (fun kv => decide (kv.1 ≠ f))).lookup f = none := by
  induction l with
  | nil => rfl
  | cons kv rest ih =>
    obtain ⟨k, v⟩ := kv
    by_cases hkf : k = f
    · subst hkf
      have hp : (decide ((k, v).1 ≠ k)) = false := by simp
      rw [List.filter_cons, hp]
      simp only [Bool.false_eq_true, if_false]
      exact ih
    · have hp : decide ((k, v).1 ≠ f) = true := by
        simp [hkf]
      have hfk : (f == k) = false := beq_eq_false_iff_ne.mpr (fun hh => hkf hh.symm)
      simp only [List.filter_cons, hp, if_true, List.lookup, hfk]
      exact ih

/-- Setting an allow-listed catalog field then reading it back yields the
written value. -/
theorem EM_getField_setField_self (r : EquipmentRow) (k : String) (v : Value)
    (hk : k ∈ equipmentUpdateFields) : (r.setField k v).getField k = v := by
  simp only [equipmentUpdateFields] at hk
  fin_cases hk <;> rfl

/-- Every optional create-time column is also update-allow-listed. -/
theorem createFields_subset_updateFields {f : String}
    (h : f ∈ equipmentCreateFields) : f ∈ equipmentUpdateFields := by
  simp only [equipmentCreateFields] at h
  fin_cases h <;> decide

/-- C10: passing an optional field as None to `create_equipment` is the same
call as omitting it — the field is dropped from the dynamic INSERT, so the
column default applies and NULL cannot be written explicitly at creation —
whereas passing the same field as None to `update_equipment` is applied and
writes NULL into the addressed row's column. -/
theorem C10_none_create_vs_update :
    (∀ (db : DB) (manufacturer model equipment_type : String) (kwargs : Kwargs)
      (f : String),
      kwargs.lookup f = some Value.null →
      create_equipment db manufacturer model equipment_type kwargs =
        create_equipment db manufacturer model equipment_type
          (kwargs.filter (fun kv => decide (kv.1 ≠ f)))) ∧
    (∀ (db db' : DB) (equipment_id : Nat) (f : String),
      f ∈ equipmentCreateFields →
      update_equipment db equipment_id [(f, Value.null)] = .ok db' →
      ∀ n : Nat, n < db.equipment_master.length →
        (db.equipment_master.getD n dummyEquipmentRow).equipment_id = equipment_id →
        (db'.equipment_master.getD n dummyEquipmentRow).getField f = Value.null) := by
  constructor
  · intro db m mo t kwargs f hlk
    have hrow : ∀ base : EquipmentRow,
        equipmentCreateFields.foldl (fun r fld =>
          match kwargs.lookup fld with
          | some v => if v = Value.null then r else r.setField fld v
          | none => r) base =
        equipmentCreateFields.foldl (fun r fld =>
          match (kwargs.filter (fun kv => decide (kv.1 ≠ f))).lookup fld with
          | some v => if v = Value.null then r else r.setField fld v
          | none => r) base := by
      intro base
      refine List.foldl_ext _ _ base ?_
      intro r fld _
      by_cases hf : fld = f
      · subst hf
        rw [hlk, lookup_filter_self]
        simp
      · rw [lookup_filter_ne hf]
    simp only [create_equipment, hrow]
  · intro db db' eid f hf hok n hlt hid
    have hfu : f ∈ equipmentUpdateFields := createFields_subset_updateFields hf
    have hcont : equipmentUpdateFields.contains f = true := by
      simpa using hfu
    have hupd : ([((f : String), Value.null)].filter
        (fun kv => equipmentUpdateFields.contains kv.1)) = [(f, Value.null)] := by
      simp [List.filter_cons, hcont, hfu]
    simp only [update_equipment, hupd] at hok
    rw [if_neg (by simp)] at hok
    split at hok
    · exact Except.noConfusion hok
    · by_cases huniq : equipmentUniqueOk (db.equipment_master.map (fun r =>
          if r.equipment_id = eid then
            EquipmentRow.applyUpdates [(f, Value.null)] r
          else r)) = false
      · rw [if_pos huniq] at hok
        exact Except.noConfusion hok
      · rw [if_neg huniq] at hok
        cases hok
        rcases hn : db.equipment_master[n]? with _ | r
        · rw [List.getElem?_eq_none_iff] at hn
          omega
        · rw [getD_of_getElem?_some hn] at hid
          show ((db.equipment_master.map _).getD n dummyEquipmentRow).getField f =
            Value.null
          rw [getD_of_getElem?_some (map_getElem?_some hn), if_pos hid]
          exact EM_getField_setField_self r f Value.null hfu

/-- C10 witness: creating with `power_hp := None` equals creating without it,
and updating `notes` to None writes NULL over a previously set value. -/
theorem C10_none_create_vs_update_witness :
    ([("power_hp", Value.null), ("notes", Value.text "check")] : Kwargs).lookup
      "power_hp" = some Value.null ∧
    create_equipment emptyDB "Wilo" "EMU KPR 100" "Pump"
      [("power_hp", Value.null), ("notes", Value.text "check")] =
      create_equipment emptyDB "Wilo" "EMU KPR 100" "Pump"
        (([("power_hp", Value.null), ("notes", Value.text "check")] : Kwargs).filter
          (fun kv => decide (kv.1 ≠ "power_hp"))) ∧
    dbNotes.equipment_master.getD 0 dummyEquipmentRow = equipmentRow1n ∧
    equipmentRow1n.notes = Value.text "verify voltage" ∧
    update_equipment dbNotes 1 [("notes", Value.null)] = .ok dbReferenced ∧
    (dbReferenced.equipment_master.getD 0 dummyEquipmentRow).getField "notes" =
      Value.null := by
  refine ⟨rfl, ?_, rfl, rfl, rfl, ?_⟩
  · exact C10_none_create_vs_update.1 emptyDB "Wilo" "EMU KPR 100" "Pump"
      [("power_hp", Value.null), ("notes", Value.text "check")] "power_hp" rfl
  · exact C10_none_create_vs_update.2 dbNotes dbReferenced 1 "notes" (by decide)
      rfl 0 (by decide) rfl

end WWTP
